import Mathlib

/-!
Verification development for the `som` order-prediction / NL-to-SQL repository.

The Python sources are shallowly embedded as total Lean functions.  Text is
processed as `List Char`; machine text semantics (Python `str`) is modelled by
Lean `String`/`List Char`.  `json.loads` / `json.dumps` (the Python standard
library routines used by the code) are modelled by an executable fueled JSON
parser and by the standard `ensure_ascii` escaping.  Known, claim-irrelevant
approximations (each noted at its definition): case mapping and whitespace are
ASCII; Python lone-surrogate strings are unrepresentable in Lean `String`;
JSON numbers are carried as their raw tokens; Python's recursion limit on
deeply nested JSON is not modelled.
-/

/-- ASCII codes used throughout, named so that no quote/backslash/backtick or
brace character literal has to appear in the file. -/
def dquote : Char := Char.ofNat 34

/-- Backslash character. -/
def bslash : Char := Char.ofNat 92

/-- Backtick character. -/
def bq : Char := Char.ofNat 96

/-- Left curly brace character. -/
def lbrace : Char := Char.ofNat 123

/-- Right curly brace character. -/
def rbrace : Char := Char.ofNat 125

/-- `startsWithL pat cs` is true when `pat` is an initial segment of `cs`
(Python `str.startswith` on the remaining text). -/
def startsWithL : List Char → List Char → Bool
  | [], _ => true
  | _ :: _, [] => false
  | p :: ps, c :: cs => p == c && startsWithL ps cs

/-- Substring containment on character lists (Python `in` on `str`). -/
def containsSubL (pat : List Char) : List Char → Bool
  | [] => pat.isEmpty
  | c :: cs => startsWithL pat (c :: cs) || containsSubL pat cs

/-- Substring containment on strings (Python `"x" in s`). -/
def containsSub (pat s : String) : Bool := containsSubL pat.toList s.toList

/-- ASCII lower-casing of one character; models Python `str.lower` for the
ASCII range (the only range exercised by the repository's identifiers). -/
def lowerChar (c : Char) : Char :=
  if 65 ≤ c.toNat ∧ c.toNat ≤ 90 then Char.ofNat (c.toNat + 32) else c

/-- ASCII lower-casing of a string. -/
def lowerStr (s : String) : String := String.mk (s.toList.map lowerChar)

/-- Whitespace class of Python's regex `\s` (ASCII part). -/
def pySpace (c : Char) : Bool :=
  c == ' ' || c == Char.ofNat 9 || c == Char.ofNat 10 || c == Char.ofNat 13 ||
  c == Char.ofNat 11 || c == Char.ofNat 12

/-- Python `str.strip()`: remove leading and trailing whitespace. -/
def pyStrip (s : String) : String :=
  String.mk (((s.toList.dropWhile pySpace).reverse.dropWhile pySpace).reverse)

/-- JSON inter-token whitespace as accepted by Python's `json` module
(space, tab, newline, carriage return). -/
def jsonWs (c : Char) : Bool :=
  c == ' ' || c == Char.ofNat 9 || c == Char.ofNat 10 || c == Char.ofNat 13

/-- Skip JSON whitespace. -/
def skipWs (cs : List Char) : List Char := cs.dropWhile jsonWs

/-- JSON values as produced by Python's `json.loads`.  Numbers keep their raw
source token (the claims never depend on numeric value beyond zero-ness,
which is decided from the token). -/
inductive Json where
  | null : Json
  | bool (b : Bool) : Json
  | num (tok : String) : Json
  | str (s : String) : Json
  | arr (elems : List Json) : Json
  | obj (fields : List (String × Json)) : Json
deriving Repr

/-- Value of a hexadecimal digit character. -/
def hexVal (c : Char) : Option Nat :=
  if 48 ≤ c.toNat ∧ c.toNat ≤ 57 then some (c.toNat - 48)
  else if 97 ≤ c.toNat ∧ c.toNat ≤ 102 then some (c.toNat - 87)
  else if 65 ≤ c.toNat ∧ c.toNat ≤ 70 then some (c.toNat - 55)
  else none

/-- Value of four hexadecimal digit characters. -/
def hex4 (a b c d : Char) : Option Nat :=
  match hexVal a, hexVal b, hexVal c, hexVal d with
  | some va, some vb, some vc, some vd => some (va * 4096 + vb * 256 + vc * 16 + vd)
  | _, _, _, _ => none

/-- Fueled JSON string-literal body parser (after the opening quote), strict
mode as in Python `json.loads`: literal control characters are rejected,
escape sequences are decoded, surrogate pairs are combined.  Lean `String`
cannot hold lone surrogates, so a lone surrogate escape fails here (Python
would produce a lone-surrogate `str`; no claim depends on such inputs).
Fuel decreases once per decoded character; callers pass `length + 1`. -/
def parseStrF : Nat → List Char → Option (List Char × List Char)
  | 0, _ => none
  | _ + 1, [] => none
  | f + 1, c :: cs =>
    if c = dquote then some ([], cs)
    else if c = bslash then
      match cs with
      | [] => none
      | e :: cs' =>
        if e = dquote then (parseStrF f cs').map (fun p => (dquote :: p.1, p.2))
        else if e = bslash then (parseStrF f cs').map (fun p => (bslash :: p.1, p.2))
        else if e = '/' then (parseStrF f cs').map (fun p => ('/' :: p.1, p.2))
        else if e = 'b' then (parseStrF f cs').map (fun p => (Char.ofNat 8 :: p.1, p.2))
        else if e = 'f' then (parseStrF f cs').map (fun p => (Char.ofNat 12 :: p.1, p.2))
        else if e = 'n' then (parseStrF f cs').map (fun p => (Char.ofNat 10 :: p.1, p.2))
        else if e = 'r' then (parseStrF f cs').map (fun p => (Char.ofNat 13 :: p.1, p.2))
        else if e = 't' then (parseStrF f cs').map (fun p => (Char.ofNat 9 :: p.1, p.2))
        else if e = 'u' then
          match cs' with
          | a :: b :: c2 :: d :: cs'' =>
            match hex4 a b c2 d with
            | none => none
            | some n =>
              if n < 0xD800 ∨ 0xE000 ≤ n then
                (parseStrF f cs'').map (fun p => (Char.ofNat n :: p.1, p.2))
              else if n ≤ 0xDBFF then
                match cs'' with
                | e2 :: u2 :: a2 :: b2 :: c3 :: d2 :: cs3 =>
                  if e2 = bslash ∧ u2 = 'u' then
                    match hex4 a2 b2 c3 d2 with
                    | some m =>
                      if 0xDC00 ≤ m ∧ m ≤ 0xDFFF then
                        (parseStrF f cs3).map (fun p =>
                          (Char.ofNat (0x10000 + (n - 0xD800) * 1024 + (m - 0xDC00)) :: p.1, p.2))
                      else none
                    | none => none
                  else none
                | _ => none
              else none
          | _ => none
        else none
    else if c.toNat < 32 then none
    else (parseStrF f cs).map (fun p => (c :: p.1, p.2))

/-- Optional fraction part of a JSON number token (`.` followed by at least
one digit), per the number grammar used by Python's `json` scanner. -/
def fracPart (cs : List Char) : List Char × List Char :=
  match cs with
  | '.' :: r =>
    let ds := r.takeWhile Char.isDigit
    if ds.isEmpty then ([], cs) else ('.' :: ds, r.dropWhile Char.isDigit)
  | _ => ([], cs)

/-- Optional exponent part of a JSON number token. -/
def expPart (cs : List Char) : List Char × List Char :=
  match cs with
  | e :: r =>
    if e = 'e' ∨ e = 'E' then
      match r with
      | s :: r2 =>
        if s = '+' ∨ s = '-' then
          let ds := r2.takeWhile Char.isDigit
          if ds.isEmpty then ([], cs) else (e :: s :: ds, r2.dropWhile Char.isDigit)
        else
          let ds := r.takeWhile Char.isDigit
          if ds.isEmpty then ([], cs) else (e :: ds, r.dropWhile Char.isDigit)
      | [] => ([], cs)
    else ([], cs)
  | [] => ([], cs)

/-- JSON number token: `-? (0 | [1-9][0-9]*) frac? exp?`, returned as its raw
character sequence together with the unconsumed input. -/
def parseNumTok (cs : List Char) : Option (List Char × List Char) :=
  let (sgn, cs1) : List Char × List Char :=
    match cs with
    | '-' :: r => (['-'], r)
    | _ => ([], cs)
  match cs1 with
  | [] => none
  | c :: r =>
    if c = '0' then
      let (fp, cs2) := fracPart r
      let (ep, cs3) := expPart cs2
      some (sgn ++ '0' :: (fp ++ ep), cs3)
    else if c.isDigit then
      let ip := cs1.takeWhile Char.isDigit
      let cs2 := cs1.dropWhile Char.isDigit
      let (fp, cs3) := fracPart cs2
      let (ep, cs4) := expPart cs3
      some (sgn ++ ip ++ fp ++ ep, cs4)
    else none

/-- Parsing mode for the fueled JSON value parser: a single value, the tail of
an object body (after the first member), or the tail of an array body. -/
inductive PMode where
  | val : PMode
  | objTail : PMode
  | arrTail : PMode

/-- Result of one fueled-parser call, matching the mode it was called in. -/
inductive PRes where
  | v (j : Json) : PRes
  | ms (l : List (String × Json)) : PRes
  | vs (l : List Json) : PRes

/-- Fueled JSON value parser modelling Python `json.loads` (including the
non-standard `NaN` / `Infinity` / `-Infinity` constants Python accepts).
Fuel decreases on each nested call and every recursive call strictly shrinks
the input, so fuel `length + 1` (as passed by `parseJsonStr`) never runs out;
string literals are delegated to `parseStrF` with their own sufficient fuel. -/
def parseCore : Nat → PMode → List Char → Option (PRes × List Char)
  | 0, _, _ => none
  | f + 1, PMode.val, cs0 =>
    match skipWs cs0 with
    | [] => none
    | c :: r =>
      if c = dquote then
        match parseStrF (r.length + 1) r with
        | some (sc, rest) => some (PRes.v (Json.str (String.mk sc)), rest)
        | none => none
      else if c = lbrace then
        match skipWs r with
        | [] => none
        | d :: r2 =>
          if d = rbrace then some (PRes.v (Json.obj []), r2)
          else if d = dquote then
            match parseStrF (r2.length + 1) r2 with
            | none => none
            | some (k, rest1) =>
              match skipWs rest1 with
              | ':' :: rest2 =>
                match parseCore f PMode.val rest2 with
                | some (PRes.v v, rest3) =>
                  match parseCore f PMode.objTail rest3 with
                  | some (PRes.ms l, rest4) =>
                    some (PRes.v (Json.obj ((String.mk k, v) :: l)), rest4)
                  | _ => none
                | _ => none
              | _ => none
          else none
      else if c = '[' then
        match skipWs r with
        | ']' :: r2 => some (PRes.v (Json.arr []), r2)
        | r1 =>
          match parseCore f PMode.val r1 with
          | some (PRes.v v, rest1) =>
            match parseCore f PMode.arrTail rest1 with
            | some (PRes.vs l, rest2) => some (PRes.v (Json.arr (v :: l)), rest2)
            | _ => none
          | _ => none
      else if startsWithL "true".toList (c :: r) then some (PRes.v (Json.bool true), r.drop 3)
      else if startsWithL "false".toList (c :: r) then some (PRes.v (Json.bool false), r.drop 4)
      else if startsWithL "null".toList (c :: r) then some (PRes.v Json.null, r.drop 3)
      else if startsWithL "NaN".toList (c :: r) then some (PRes.v (Json.num "NaN"), r.drop 2)
      else if startsWithL "Infinity".toList (c :: r) then
        some (PRes.v (Json.num "Infinity"), r.drop 7)
      else if startsWithL "-Infinity".toList (c :: r) then
        some (PRes.v (Json.num "-Infinity"), r.drop 8)
      else
        match parseNumTok (c :: r) with
        | some (tok, rest) => some (PRes.v (Json.num (String.mk tok)), rest)
        | none => none
  | f + 1, PMode.objTail, cs0 =>
    match skipWs cs0 with
    | [] => none
    | d :: r =>
      if d = rbrace then some (PRes.ms [], r)
      else if d = ',' then
        match skipWs r with
        | q :: r2 =>
          if q = dquote then
            match parseStrF (r2.length + 1) r2 with
            | none => none
            | some (k, rest1) =>
              match skipWs rest1 with
              | ':' :: rest2 =>
                match parseCore f PMode.val rest2 with
                | some (PRes.v v, rest3) =>
                  match parseCore f PMode.objTail rest3 with
                  | some (PRes.ms l, rest4) => some (PRes.ms ((String.mk k, v) :: l), rest4)
                  | _ => none
                | _ => none
              | _ => none
          else none
        | [] => none
      else none
  | f + 1, PMode.arrTail, cs0 =>
    match skipWs cs0 with
    | [] => none
    | d :: r =>
      if d = ']' then some (PRes.vs [], r)
      else if d = ',' then
        match parseCore f PMode.val r with
        | some (PRes.v v, rest1) =>
          match parseCore f PMode.arrTail rest1 with
          | some (PRes.vs l, rest2) => some (PRes.vs (v :: l), rest2)
          | _ => none
        | _ => none
      else none

/-- `json.loads`: parse one JSON value and require only whitespace after it;
any failure (including Python's `json.JSONDecodeError`) is `none`. -/
def parseJsonStr (s : String) : Option Json :=
  match parseCore (s.toList.length + 1) PMode.val s.toList with
  | some (PRes.v j, rest) => if (skipWs rest).isEmpty then some j else none
  | _ => none

/-- Hex digit character (lowercase), as emitted by Python `json.dumps`. -/
def hexDig (n : Nat) : Char :=
  if n < 10 then Char.ofNat (48 + n) else Char.ofNat (87 + n)

/-- Four lowercase hex digits of `n < 0x10000` (`%04x`). -/
def toHex4 (n : Nat) : List Char :=
  [hexDig (n / 4096 % 16), hexDig (n / 256 % 16), hexDig (n / 16 % 16), hexDig (n % 16)]

/-- Escape one character the way Python `json.dumps` (default
`ensure_ascii=True`) escapes string contents: quote, backslash and the five
short control escapes, `\u00XX` for other control characters, printable
ASCII verbatim, `\uXXXX` for other BMP characters and surrogate pairs for
astral characters. -/
def escChar (c : Char) : List Char :=
  if c = dquote then [bslash, dquote]
  else if c = bslash then [bslash, bslash]
  else if c = Char.ofNat 8 then [bslash, 'b']
  else if c = Char.ofNat 9 then [bslash, 't']
  else if c = Char.ofNat 10 then [bslash, 'n']
  else if c = Char.ofNat 12 then [bslash, 'f']
  else if c = Char.ofNat 13 then [bslash, 'r']
  else if 32 ≤ c.toNat ∧ c.toNat ≤ 126 then [c]
  else if c.toNat < 0x10000 then bslash :: 'u' :: toHex4 c.toNat
  else
    (bslash :: 'u' :: toHex4 (0xD800 + (c.toNat - 0x10000) / 1024)) ++
      (bslash :: 'u' :: toHex4 (0xDC00 + (c.toNat - 0x10000) % 1024))

/-- `json.dumps` escaping of a whole character sequence. -/
def escL : List Char → List Char
  | [] => []
  | c :: cs => escChar c ++ escL cs

/-- The serialized form `json.dumps` gives to the two-field prediction result
`dict` built by `get_prediction` (insertion order `predicted_comment`,
`reason`; default separators), as a character list. -/
def dumpsPredictionL (a b : List Char) : List Char :=
  lbrace :: dquote ::
    (escL "predicted_comment".toList ++ dquote :: ':' :: ' ' :: dquote ::
      (escL a ++ dquote :: ',' :: ' ' :: dquote ::
        (escL "reason".toList ++ dquote :: ':' :: ' ' :: dquote ::
          (escL b ++ [dquote, rbrace]))))

/-- String form of `dumpsPredictionL`. -/
def dumpsPrediction (a b : String) : String :=
  String.mk (dumpsPredictionL a.toList b.toList)

/-- Single left-to-right pass of Python `re.sub(r'```json\s*', '', text)`:
at each position, a literal ```` ```json ```` followed by any run of `\s`
is removed and scanning continues after the removed text.  Fuel decreases
once per emitted or removed character; callers pass `length + 1` and fuel
exhaustion (unreachable at that fuel) returns the rest unchanged. -/
def sub1F : Nat → List Char → List Char
  | 0, cs => cs
  | _ + 1, [] => []
  | f + 1, c :: cs =>
    if startsWithL (String.toList "```json") (c :: cs) then
      sub1F f (((c :: cs).drop 7).dropWhile pySpace)
    else c :: sub1F f cs

/-- Single left-to-right pass of Python `re.sub(r'```', '', text)`. -/
def sub2F : Nat → List Char → List Char
  | 0, cs => cs
  | _ + 1, [] => []
  | f + 1, c :: cs =>
    if startsWithL (String.toList "```") (c :: cs) then
      sub2F f ((c :: cs).drop 3)
    else c :: sub2F f cs

/-- Markdown-fence stripping applied by every normalizer in the repository:
`re.sub(r'```json\s*', '', text)` followed by `re.sub(r'```', '', text)`. -/
def stripFences (s : String) : String :=
  let l1 := sub1F (s.toList.length + 1) s.toList
  String.mk (sub2F (l1.length + 1) l1)

/-- Python type name of a `json.loads` result, as it appears in the
`AttributeError` message raised by `.get` on a non-`dict` value.  Whether a
number is `int` or `float` is read off its token. -/
def pyTypeName : Json → String
  | Json.null => "NoneType"
  | Json.bool _ => "bool"
  | Json.num tok =>
    if containsSub "." tok || containsSub "e" tok || containsSub "E" tok ||
        containsSub "N" tok || containsSub "I" tok then "float" else "int"
  | Json.str _ => "str"
  | Json.arr _ => "list"
  | Json.obj _ => "dict"

/-- Python truthiness of a `json.loads` value (`if not value`): `None`,
`False`, empty string, numeric zero and empty containers are falsy.  Zero-ness
of a number is decided from its token (digits of the mantissa all `0`). -/
def jsonFalsy : Json → Bool
  | Json.null => true
  | Json.bool b => !b
  | Json.num tok =>
    let m := (tok.toList.takeWhile (fun c => c ≠ 'e' ∧ c ≠ 'E')).filter Char.isDigit
    !m.isEmpty && m.all (· = '0')
  | Json.str s => s.toList.isEmpty
  | Json.arr l => l.isEmpty
  | Json.obj l => l.isEmpty

/-- `dict.get` on the association list of a parsed JSON object.  Python keeps
the last of duplicate keys produced by `json.loads`, hence the last match. -/
def lookupLast (k : String) (fields : List (String × Json)) : Option Json :=
  ((fields.filter (fun p => p.1 == k)).getLast?).map (fun p => p.2)

/-- Apostrophe character (built by code so no bare apostrophe appears in a
string literal of this file). -/
def squote : Char := Char.ofNat 39

/-- Apostrophe as a one-character string. -/
def apos : String := String.mk [squote]

/-- A string wrapped in apostrophes, as Python quotes names in error texts. -/
def quoteWrap (s : String) : String := apos ++ s ++ apos

/-- The `AttributeError` message Python raises when `.get` is called on the
non-`dict` result of `json.loads` (caught by the outer `except` blocks). -/
def attrErrMsg (j : Json) : String :=
  quoteWrap (pyTypeName j) ++ " object has no attribute " ++ quoteWrap "get"

/-- Decimal digits of a natural number, fueled (fuel `n` suffices). -/
def natToChars : Nat → Nat → List Char
  | 0, n => [Char.ofNat (48 + n % 10)]
  | f + 1, n => if n < 10 then [Char.ofNat (48 + n)] else
      natToChars f (n / 10) ++ [Char.ofNat (48 + n % 10)]

/-- Decimal rendering of a natural number (Python `f"{n}"`). -/
def natToStr (n : Nat) : String := String.mk (natToChars n n)

/-- The two-field result `dict` of the prediction normalizer
(`get_prediction` in `SOM_NEW/som_backend/main.py`, `order_prediction.py`,
`order_prediction_api.py` and `order_prediction_sql.py`).  Field values are
kept as `Json` because Python's `result.get(...)` returns whatever value the
model put there. -/
structure PredRes where
  predicted_comment : Json
  reason : Json
deriving Repr

/-- The fixed sentinel returned on JSON parse failure. -/
def predictionSentinel : PredRes :=
  ⟨Json.str "Error: Could not generate prediction",
   Json.str "Failed to parse AI response into JSON format"⟩

/-- The response-normalization tail of `get_prediction`: the LLM transport is
external, so the function takes the raw `response.text`.  It strips markdown
fences, parses JSON, and extracts `predicted_comment` / `reason` with
empty-string defaults; `json.JSONDecodeError` yields the fixed sentinel, and
the `AttributeError` from `.get` on a non-`dict` value is caught by the outer
`except` with the underlying message as `reason`.  The function is total:
no exception escapes to the caller. -/
def get_prediction (raw : String) : PredRes :=
  match parseJsonStr (stripFences raw) with
  | some (Json.obj fields) =>
    ⟨(lookupLast "predicted_comment" fields).getD (Json.str ""),
     (lookupLast "reason" fields).getD (Json.str "")⟩
  | some j => ⟨Json.str "Error: Could not generate prediction", Json.str (attrErrMsg j)⟩
  | none => predictionSentinel

/-- Index of the first occurrence of `pat` in a character list, if any. -/
def findSub (pat : List Char) : List Char → Option Nat
  | [] => if pat.isEmpty then some 0 else none
  | c :: cs => if startsWithL pat (c :: cs) then some 0 else (findSub pat cs).map (· + 1)

/-- The regex fallback of `nl_to_sql`:
`re.search(r'(?:```sql)?\s*(SELECT[\s\S]+?)(?:```|$)', text, re.IGNORECASE)`
followed by `.group(1).strip()`.  The scanned text has already been fence-
stripped, so it contains no ```` ``` ```` run; the lazy group therefore runs
from the first case-insensitive `SELECT` to the end of the text (the group
needs at least one character after `SELECT`), and is then stripped. -/
def extractSelect (s : String) : Option String :=
  let cs := s.toList
  match findSub "select".toList (cs.map lowerChar) with
  | some i => if i + 6 < cs.length then some (pyStrip (String.mk (cs.drop i))) else none
  | none => none

/-- The two-field result `dict` of the SQL-variant normalizer (`nl_to_sql`).
Values are kept as `Json` for the same reason as `PredRes`. -/
structure SqlRes where
  sql_query : Json
  explanation : Json
deriving Repr

/-- The comment string substituted for an empty or missing `sql_query`. -/
def emptySqlComment : String := "-- Could not generate a valid SQL query"

/-- The response-normalization tail of `nl_to_sql` (the prompt build and the
LLM call are external; the function takes the raw `response.text`).  Strict
JSON parse first; on `json.JSONDecodeError`, a case-insensitive regex scan for
a `SELECT` statement; only if both fail, the sentinel failure result with an
empty `sql_query`.  A falsy `sql_query` in a parsed object is replaced by the
comment string `-- Could not generate a valid SQL query`; a parsed non-`dict`
value makes `.get` raise `AttributeError`, caught by the outer `except` which
returns an empty query with an `Error:`-prefixed explanation. -/
def nl_to_sql (raw : String) : SqlRes :=
  let t := stripFences raw
  match parseJsonStr t with
  | some (Json.obj fields) =>
    let v := (lookupLast "sql_query" fields).getD Json.null
    ⟨if jsonFalsy v then Json.str emptySqlComment else v,
     (lookupLast "explanation" fields).getD (Json.str "")⟩
  | some j => ⟨Json.str "", Json.str ("Error: " ++ attrErrMsg j)⟩
  | none =>
    match extractSelect t with
    | some sql => ⟨Json.str sql, Json.str "SQL query extracted from non-JSON response."⟩
    | none => ⟨Json.str "", Json.str "Failed to parse AI response. Please try a different query."⟩

/-- One row of the catalog query in `get_table_schema` (columns in the
`SELECT` order; the final relationship-count column is unused by the loop). -/
structure SchemaRow where
  schema_name : String
  table_name : String
  column_name : String
  data_type : String
  max_length : Int
  is_nullable : Bool
deriving Repr, DecidableEq

/-- Column record stored in `schema_data` by `get_table_schema`. -/
structure ColumnInfo where
  column_name : String
  data_type : String
  max_length : Int
  is_nullable : Bool
deriving Repr, DecidableEq

/-- The configured sensitive-name test: `'sold_to' in column_name.lower()`. -/
def isSensitiveName (name : String) : Bool := containsSub "sold_to" (lowerStr name)

/-- Append a column under its table key, inserting the key on first sight;
models insertion into the Python `schema_data` dict, which preserves
insertion order. -/
def addColumn (acc : List (String × List ColumnInfo)) (key : String) (col : ColumnInfo) :
    List (String × List ColumnInfo) :=
  if acc.any (fun p => p.1 == key) then
    acc.map (fun p => if p.1 == key then (p.1, p.2 ++ [col]) else p)
  else acc ++ [(key, [col])]

/-- The row-processing loop of `get_table_schema` (the database connection and
catalog query are external; the function takes the fetched rows): skip `sys` /
`INFORMATION_SCHEMA` schemas and `#`-prefixed temp tables, skip any column
whose lower-cased name contains `sold_to`, and group the rest by
`schema.table`. -/
def get_table_schema (rows : List SchemaRow) : List (String × List ColumnInfo) :=
  rows.foldl
    (fun acc row =>
      if row.schema_name == "sys" || row.schema_name == "INFORMATION_SCHEMA" ||
          startsWithL "#".toList row.table_name.toList then acc
      else if isSensitiveName row.column_name then acc
      else
        addColumn acc (row.schema_name ++ "." ++ row.table_name)
          ⟨row.column_name, row.data_type, row.max_length, row.is_nullable⟩)
    []

/-- One row of the foreign-key catalog query in `get_foreign_keys`. -/
structure FkRow where
  fk_name : String
  parent_schema : String
  parent_table : String
  parent_column : String
  referenced_schema : String
  referenced_table : String
  referenced_column : String
deriving Repr, DecidableEq

/-- Foreign-key record built by `get_foreign_keys`. -/
structure FkRel where
  fk_name : String
  parent_table : String
  parent_column : String
  referenced_table : String
  referenced_column : String
deriving Repr, DecidableEq

/-- The row-processing loop of `get_foreign_keys`: only the first 300 fetched
rows are considered, and any relationship whose parent or referenced column
name contains `sold_to` (case-insensitively) is skipped. -/
def get_foreign_keys (rows : List FkRow) : List FkRel :=
  (rows.take 300).foldl
    (fun acc row =>
      if isSensitiveName row.parent_column || isSensitiveName row.referenced_column then acc
      else acc ++ [⟨row.fk_name, row.parent_schema ++ "." ++ row.parent_table,
        row.parent_column, row.referenced_schema ++ "." ++ row.referenced_table,
        row.referenced_column⟩])
    []

/-- Stable insertion of a table into a list kept in descending column-count
order: the new entry goes after every existing entry with at least as many
columns, matching the stability of Python `sorted(..., key=len, reverse=True)`. -/
def insertByCountDesc (x : String × List ColumnInfo) :
    List (String × List ColumnInfo) → List (String × List ColumnInfo)
  | [] => [x]
  | y :: ys =>
    if y.2.length < x.2.length then x :: y :: ys else y :: insertByCountDesc x ys

/-- `sorted(schema_data.items(), key=lambda x: len(x[1]), reverse=True)`:
stable descending sort by column count. -/
def sortTablesDesc (l : List (String × List ColumnInfo)) : List (String × List ColumnInfo) :=
  l.foldl (fun acc x => insertByCountDesc x acc) []

/-- The table cap applied by `prepare_schema_context`. -/
def topTables (sd : List (String × List ColumnInfo)) : List (String × List ColumnInfo) :=
  (sortTablesDesc sd).take 50

/-- Rendering of one column line of the schema context. -/
def renderColumn (c : ColumnInfo) : String :=
  "  - " ++ c.column_name ++ " (" ++ c.data_type ++ ", " ++
    (if c.is_nullable then "NULL" else "NOT NULL") ++ ")" ++ String.mk [Char.ofNat 10]

/-- Rendering of one table block: at most the first 20 columns are listed,
with a summary line for the rest. -/
def renderTable (t : String × List ColumnInfo) : String :=
  "Table: " ++ t.1 ++ String.mk [Char.ofNat 10] ++
    String.join ((t.2.take 20).map renderColumn) ++
    (if 20 < t.2.length then
      "  - ... and " ++ natToStr (t.2.length - 20) ++ " more columns" ++ String.mk [Char.ofNat 10]
     else "") ++ String.mk [Char.ofNat 10]

/-- Rendering of one foreign-key line. -/
def renderFk (fk : FkRel) : String :=
  "  - " ++ fk.parent_table ++ "." ++ fk.parent_column ++ " -> " ++
    fk.referenced_table ++ "." ++ fk.referenced_column ++ String.mk [Char.ofNat 10]

/-- `prepare_schema_context`, modulo the external metadata fetches: given the
processed table data and foreign keys (`none` models a fetch that returned
`None`), renders the bounded schema description.  Tables are sorted by column
count descending and capped at 50, columns listed per table are capped at 20,
and rendered foreign keys are capped at 100. -/
def prepare_schema_context (schemaData : Option (List (String × List ColumnInfo)))
    (fks : Option (List FkRel)) (database : String) : String :=
  match schemaData with
  | none => "Error: Could not retrieve schema information."
  | some sd =>
    let base := "Database: " ++ database ++ String.mk [Char.ofNat 10, Char.ofNat 10] ++
      "Tables and Columns:" ++ String.mk [Char.ofNat 10] ++
      String.join ((topTables sd).map renderTable)
    match fks with
    | some fkList =>
      if fkList.isEmpty then base
      else base ++ "Foreign Key Relationships:" ++ String.mk [Char.ofNat 10] ++
        String.join ((fkList.take 100).map renderFk) ++
        (if 100 < fkList.length then
          "  - ... and " ++ natToStr (fkList.length - 100) ++ " more relationships" ++
            String.mk [Char.ofNat 10]
         else "")
    | none => base

/-- One record of the order-history result set used by the prediction
pipeline (`SOM_NEW/som_backend/main.py`).  Trend values are carried opaquely
as named numeric payloads: the comparison-selection logic never computes with
them, so Python float semantics is out of scope here. -/
structure OrderRecord where
  ORDERNUMBER : String
  ORDER_JRNL_CMT_TXT : String
  trends : List (String × Int)
deriving Repr, DecidableEq

/-- The comparison-record selection of `prepare_prompt`
(`SOM_NEW/som_backend/main.py`, line 258): all records whose `ORDERNUMBER`
differs from the selected record's, in their existing order, truncated to the
first 500. -/
def otherRecords (sel : OrderRecord) (allRecords : List OrderRecord) : List OrderRecord :=
  (allRecords.filter (fun r => r.ORDERNUMBER != sel.ORDERNUMBER)).take 500

/-- One entry of the `other_records_data` list serialized into the prompt. -/
structure ComparisonData where
  order_number : String
  comment : String
  trends : List (String × Int)
deriving Repr, DecidableEq

/-- The `other_records_data` comparison list built by `prepare_prompt`. -/
def promptComparisons (sel : OrderRecord) (allRecords : List OrderRecord) :
    List ComparisonData :=
  (otherRecords sel allRecords).map (fun r => ⟨r.ORDERNUMBER, r.ORDER_JRNL_CMT_TXT, r.trends⟩)

/-- The guard structure of `prepare_prompt`: `None` when the record set is
empty or no record is selected, otherwise the selected order number and the
comparison list that get serialized into the prompt text (the literal prompt
rendering adds only fixed instruction text around these). -/
def prepare_prompt (sel : Option OrderRecord) (allRecords : List OrderRecord) :
    Option (String × List ComparisonData) :=
  if allRecords.isEmpty then none
  else
    match sel with
    | none => none
    | some s => some (s.ORDERNUMBER, promptComparisons s allRecords)

/-- Tabular query result of `pd.read_sql` (column names and rows). -/
structure TableData where
  columns : List String
  rows : List (List String)
deriving Repr, DecidableEq

/-- Python `str()` of a `json.loads` value, used only when a truthy
`explanation` is interpolated into the summary.  String values render as
themselves (the only case the code normally meets); container/number
rendering is an approximation of Python `str` (quoting and float formatting
elided), fueled by structure depth.  No claim depends on these cases. -/
def pyStr : Nat → Json → String
  | _, Json.null => "None"
  | _, Json.bool true => "True"
  | _, Json.bool false => "False"
  | _, Json.num tok => tok
  | _, Json.str s => s
  | 0, Json.arr _ => "[...]"
  | 0, Json.obj _ => String.mk [lbrace] ++ "..." ++ String.mk [rbrace]
  | f + 1, Json.arr l =>
    "[" ++ String.intercalate ", " (l.map (pyStr f)) ++ "]"
  | f + 1, Json.obj l =>
    String.mk [lbrace] ++
      String.intercalate ", " (l.map (fun p => quoteWrap p.1 ++ ": " ++ pyStr f p.2)) ++
      String.mk [rbrace]

/-- The result `dict` of `execute_query_with_user_feedback`.  The Python
function returns `dict`s with different key sets: the first two failure
branches omit the `sql_query` key entirely, which `none` models here
(`summary` and `results` use `none` for the Python value `None`, which those
branches do set). -/
structure QueryOutcome where
  success : Bool
  results : Option TableData
  message : String
  summary : Option String
  sql_query : Option Json
deriving Repr

/-- User message of the connection/schema failure branch. -/
def dbFailMessage : String :=
  "We couldn" ++ apos ++ "t connect to the database. Please try again later or contact support."

/-- User message of the empty-generated-query branch. -/
def notUnderstoodMessage : String :=
  "We couldn" ++ apos ++ "t understand your question. Please try rephrasing it or being more specific."

/-- User message of the query-execution-failure branch. -/
def execFailMessage : String :=
  "We couldn" ++ apos ++ "t find the information you requested. Please try a different question."

/-- User message of the zero-row success branch. -/
def noRecordsMessage : String :=
  "No records found matching your criteria. Please try a different search."

/-- User message of the non-empty success branch. -/
def foundMessage (n : Nat) : String :=
  "Found " ++ natToStr n ++ " records matching your query."

/-- Summary of the non-empty success branch: row/column counts plus the
model's explanation verbatim when truthy. -/
def resultSummary (t : TableData) (explanation : Json) : String :=
  "Found " ++ natToStr t.rows.length ++ " records with " ++
    natToStr t.columns.length ++ " columns." ++
    (if jsonFalsy explanation then ""
     else String.mk [Char.ofNat 10, Char.ofNat 10] ++ "This shows: " ++ pyStr 100 explanation)

/-- `execute_query_with_user_feedback`, with its external collaborators as
parameters: `schemaContext` is the string `prepare_schema_context` produced,
`raw` is the LLM's response text fed to `nl_to_sql`, and `execQuery` models
`execute_sql_query` (`none` for a connection or execution failure).  The five
return points of the Python function map to the five branches here; the
function is total, so no exception escapes. -/
def execute_query_with_user_feedback (schemaContext : String) (raw : String)
    (execQuery : Json → Option TableData) : QueryOutcome :=
  if containsSub "Error:" schemaContext then
    ⟨false, none, dbFailMessage, none, none⟩
  else
    let sqlResult := nl_to_sql raw
    let sq := sqlResult.sql_query
    if jsonFalsy sq then
      ⟨false, none, notUnderstoodMessage, none, none⟩
    else
      match execQuery sq with
      | none => ⟨false, none, execFailMessage, none, some sq⟩
      | some results =>
        if results.rows.length == 0 then
          ⟨true, some results, noRecordsMessage,
            some "No data found that matches your criteria.", some sq⟩
        else
          ⟨true, some results, foundMessage results.rows.length,
            some (resultSummary results sqlResult.explanation), some sq⟩

/-- One row of the configurable table updated by `update_database`
(`order_prediction_api.py`).  The three written columns are explicit;
every other column of the row is carried opaquely in `rest`. -/
structure DbRow where
  date : Int
  predictedComment : String
  predictionReason : String
  predictionDate : String
  rest : List (String × String)
deriving Repr, DecidableEq

/-- Standard semantics of the single `UPDATE` statement issued by
`update_database`: set `Predicted_Comment`, `Prediction_Reason` and
`Prediction_Date` on exactly the rows whose `Date` equals the table's maximum
`Date` (no row when the table is empty, since `Date = NULL` matches nothing),
leaving every other row, and every other column of the updated rows,
unchanged. -/
def runUpdateSql (table : List DbRow) (comment reason ts : String) : List DbRow :=
  table.map (fun row =>
    if (table.map (fun r => r.date)).max? = some row.date then
      { row with predictedComment := comment, predictionReason := reason, predictionDate := ts }
    else row)

/-- `update_database`: on success the `UPDATE` is committed and `True` is
returned; any exception from `execute`/`commit` (modelled by `ok = false`) is
caught, the transaction is not committed, and `False` is returned — the
function never raises.  The pair is the table state after the call and the
Boolean result. -/
def update_database (ok : Bool) (table : List DbRow) (comment reason ts : String) :
    List DbRow × Bool :=
  if ok then (runUpdateSql table comment reason ts, true) else (table, false)

/-- Concrete records for the C2 witness. -/
def c2recA : OrderRecord := ⟨"100234", "Released - strength stable", [("TREND_LAG1_STRNT", 5)]⟩

/-- Second concrete record for the C2 witness. -/
def c2recB : OrderRecord := ⟨"100235", "Hold - strength dropping", [("TREND_LAG1_STRNT", 2)]⟩

/-- Concrete table for the C9 witness: the second row holds the maximal date. -/
def c9table : List DbRow := [⟨10, "pc0", "pr0", "pd0", [("Qty", "5")]⟩,
  ⟨20, "pc1", "pr1", "pd1", [("Qty", "7")]⟩]

/-- Concrete schema data for the C6 witness. -/
def c6sd : List (String × List ColumnInfo) :=
  [("dbo.A", [⟨"X", "int", 4, true⟩]),
   ("dbo.B", [⟨"Y", "int", 4, true⟩, ⟨"Z", "varchar", 50, false⟩])]

/-- Concrete catalog rows for the C1 witness: one sensitive and one clean
column, one sensitive and one clean foreign key. -/
def c1rows : List SchemaRow :=
  [⟨"dbo", "Orders", "SOLD_TO_PARTY", "varchar", 50, true⟩,
   ⟨"dbo", "Orders", "ORDERNUMBER", "varchar", 20, false⟩]

/-- Concrete foreign-key rows for the C1 witness. -/
def c1fkrows : List FkRow :=
  [⟨"FK1", "dbo", "Orders", "sold_to_id", "dbo", "Cust", "id"⟩,
   ⟨"FK2", "dbo", "Orders", "CUST_ID", "dbo", "Cust", "id"⟩]

/-- Three backticks, built by code so none appears in a literal. -/
def backtick3 : String := String.mk [bq, bq, bq]

/-- A string is determined by its character list. -/
lemma aux_mk_toList (s : String) : String.mk s.toList = s := by
  cases s; rfl

/-- Members of a filtered-then-truncated list are members of the source. -/
lemma aux_mem_take_filter {α : Type} {p : α → Bool} {l : List α} {n : Nat} {x : α}
    (h : x ∈ (l.filter p).take n) : x ∈ l ∧ p x = true := by
  have hm : x ∈ l.filter p := List.mem_of_mem_take h
  exact ⟨List.mem_of_mem_filter hm, List.of_mem_filter hm⟩

/-- Claim C2: for every non-empty record set and every target present in it,
`prepare_prompt` excludes the target from the comparison list by order-number
equality and truncates the comparison list to the first 500 records in the
set's existing order (sublist of the original order; no re-ranking). -/
theorem claim_C2 (sel : OrderRecord) (allRecords : List OrderRecord)
    (hne : allRecords ≠ []) (hmem : sel ∈ allRecords) :
    (∀ c ∈ promptComparisons sel allRecords, c.order_number ≠ sel.ORDERNUMBER) ∧
    (promptComparisons sel allRecords).length ≤ 500 ∧
    ((promptComparisons sel allRecords).map (fun c => c.order_number)).Sublist
      (allRecords.map (fun r => r.ORDERNUMBER)) ∧
    prepare_prompt (some sel) allRecords =
      some (sel.ORDERNUMBER, promptComparisons sel allRecords) := by
  refine ⟨?_, ?_, ?_, ?_⟩
  · intro c hc
    simp only [promptComparisons, List.mem_map] at hc
    obtain ⟨r, hr, rfl⟩ := hc
    have := (aux_mem_take_filter (p := fun r => r.ORDERNUMBER != sel.ORDERNUMBER)
      (l := allRecords) hr).2
    simpa using this
  · simp only [promptComparisons, otherRecords, List.length_map, List.length_take]
    exact le_trans (Nat.min_le_left _ _) (le_refl 500)
  · have h1 : (otherRecords sel allRecords).Sublist allRecords :=
      (List.take_sublist _ _).trans (List.filter_sublist _)
    have h2 := h1.map (fun r => r.ORDERNUMBER)
    simpa [promptComparisons, List.map_map, Function.comp] using h2
  · have : allRecords.isEmpty = false := by
      cases allRecords with
      | nil => exact absurd rfl hne
      | cons a l => rfl
    simp [prepare_prompt, this]

/-- Witness for C2 at a concrete two-record set. -/
theorem claim_C2_witness :
    (∀ c ∈ promptComparisons c2recA [c2recA, c2recB], c.order_number ≠ c2recA.ORDERNUMBER) ∧
    (promptComparisons c2recA [c2recA, c2recB]).length ≤ 500 ∧
    ((promptComparisons c2recA [c2recA, c2recB]).map (fun c => c.order_number)).Sublist
      ([c2recA, c2recB].map (fun r => r.ORDERNUMBER)) ∧
    prepare_prompt (some c2recA) [c2recA, c2recB] =
      some (c2recA.ORDERNUMBER, promptComparisons c2recA [c2recA, c2recB]) :=
  claim_C2 c2recA [c2recA, c2recB] (by decide) (by decide)

/-- Claim C9: `update_database` issues one `UPDATE` whose semantics touches
exactly the rows with maximal `Date`, sets exactly the predicted-comment,
reason and timestamp columns there (all other columns, carried in `rest`, and
the `Date` itself are unchanged), leaves every other row unchanged, and
returns `true` on success and `false` (without raising) on any failure, in
which case nothing is committed. -/
theorem claim_C9 (ok : Bool) (table : List DbRow) (comment reason ts : String) :
    ((update_database ok table comment reason ts).2 = ok) ∧
    (ok = false → (update_database ok table comment reason ts).1 = table) ∧
    ((update_database ok table comment reason ts).1.length = table.length) ∧
    (∀ i (h : i < table.length) (h2 : i < (update_database ok table comment reason ts).1.length),
      (((update_database ok table comment reason ts).1.get ⟨i, h2⟩).date =
          (table.get ⟨i, h⟩).date ∧
        ((update_database ok table comment reason ts).1.get ⟨i, h2⟩).rest =
          (table.get ⟨i, h⟩).rest) ∧
      ((table.map (fun q => q.date)).max? ≠ some (table.get ⟨i, h⟩).date ∨ ok = false →
        (update_database ok table comment reason ts).1.get ⟨i, h2⟩ = table.get ⟨i, h⟩) ∧
      ((table.map (fun q => q.date)).max? = some (table.get ⟨i, h⟩).date ∧ ok = true →
        ((update_database ok table comment reason ts).1.get ⟨i, h2⟩).predictedComment = comment ∧
        ((update_database ok table comment reason ts).1.get ⟨i, h2⟩).predictionReason = reason ∧
        ((update_database ok table comment reason ts).1.get ⟨i, h2⟩).predictionDate = ts)) := by
  cases ok with
  | false =>
    refine ⟨rfl, fun _ => rfl, rfl, ?_⟩
    intro i h h2
    refine ⟨⟨rfl, rfl⟩, fun _ => rfl, fun hc => absurd hc.2 (by simp)⟩
  | true =>
    refine ⟨rfl, fun hc => absurd hc (by simp), by simp [update_database, runUpdateSql], ?_⟩
    intro i h h2
    simp only [update_database, runUpdateSql, List.get_eq_getElem, List.getElem_map]
    by_cases hmax : (List.map (fun r => r.date) table).max? = some table[i].date
    · simp [hmax]
    · simp [hmax]

/-- Witness for C9: on the concrete table the max-date row gets the new
values, the other row is untouched, and a failed call changes nothing. -/
theorem claim_C9_witness :
    ((update_database true c9table "c" "r" "t").1.get ⟨1, by decide⟩).predictedComment = "c" ∧
    (update_database true c9table "c" "r" "t").1.get ⟨0, by decide⟩ = c9table.get ⟨0, by decide⟩ ∧
    (update_database false c9table "c" "r" "t").1 = c9table ∧
    (update_database false c9table "c" "r" "t").2 = false := by
  have h := claim_C9 true c9table "c" "r" "t"
  have hf := claim_C9 false c9table "c" "r" "t"
  exact ⟨((h.2.2.2 1 (by decide) (by decide)).2.2 (by constructor <;> decide)).1,
    (h.2.2.2 0 (by decide) (by decide)).2.1 (Or.inl (by decide)),
    hf.2.1 rfl, hf.1⟩

/-- Members of `insertByCountDesc` are the inserted element or old members. -/
lemma aux_mem_insertDesc {x y : String × List ColumnInfo}
    {l : List (String × List ColumnInfo)} (h : y ∈ insertByCountDesc x l) :
    y = x ∨ y ∈ l := by
  induction l with
  | nil => simpa [insertByCountDesc] using h
  | cons z zs ih =>
    by_cases hc : z.2.length < x.2.length
    · simp only [insertByCountDesc, if_pos hc, List.mem_cons] at h
      rcases h with h | h | h
      · exact Or.inl h
      · exact Or.inr (by simp [h])
      · exact Or.inr (List.mem_cons_of_mem _ h)
    · simp only [insertByCountDesc, if_neg hc, List.mem_cons] at h
      rcases h with h | h
      · exact Or.inr (by simp [h])
      · rcases ih h with h | h
        · exact Or.inl h
        · exact Or.inr (List.mem_cons_of_mem _ h)

/-- `insertByCountDesc` preserves descending order by column count. -/
lemma aux_pairwise_insertDesc {x : String × List ColumnInfo}
    {l : List (String × List ColumnInfo)}
    (h : l.Pairwise (fun a b => b.2.length ≤ a.2.length)) :
    (insertByCountDesc x l).Pairwise (fun a b => b.2.length ≤ a.2.length) := by
  induction l with
  | nil => simp [insertByCountDesc]
  | cons z zs ih =>
    rcases List.pairwise_cons.mp h with ⟨hz, hzs⟩
    by_cases hc : z.2.length < x.2.length
    · simp only [insertByCountDesc, if_pos hc]
      refine List.pairwise_cons.mpr ⟨?_, h⟩
      intro b hb
      rcases List.mem_cons.mp hb with rfl | hb
      · exact Nat.le_of_lt hc
      · exact le_trans (hz b hb) (Nat.le_of_lt hc)
    · simp only [insertByCountDesc, if_neg hc]
      refine List.pairwise_cons.mpr ⟨?_, ih hzs⟩
      intro b hb
      rcases aux_mem_insertDesc hb with rfl | hb
      · exact Nat.le_of_not_lt hc
      · exact hz b hb

/-- Every member of the fold state of `sortTablesDesc` comes from the
accumulator or the remaining input. -/
lemma aux_mem_sortFold (l : List (String × List ColumnInfo)) :
    ∀ (acc : List (String × List ColumnInfo)) (x : String × List ColumnInfo),
      x ∈ l.foldl (fun acc y => insertByCountDesc y acc) acc → x ∈ acc ∨ x ∈ l := by
  induction l with
  | nil => intro acc x h; exact Or.inl h
  | cons z zs ih =>
    intro acc x h
    rcases ih (insertByCountDesc z acc) x h with h2 | h2
    · rcases aux_mem_insertDesc h2 with rfl | h2
      · exact Or.inr (List.mem_cons_self _ _)
      · exact Or.inl h2
    · exact Or.inr (List.mem_cons_of_mem _ h2)

/-- `sortTablesDesc` only permutes: its members come from the input. -/
lemma aux_mem_sortTablesDesc {l : List (String × List ColumnInfo)}
    {x : String × List ColumnInfo} (h : x ∈ sortTablesDesc l) : x ∈ l := by
  rcases aux_mem_sortFold l [] x h with h2 | h2
  · cases h2
  · exact h2

/-- `sortTablesDesc` is sorted descending by column count. -/
lemma aux_sorted_sortTablesDesc (l : List (String × List ColumnInfo)) :
    (sortTablesDesc l).Pairwise (fun a b => b.2.length ≤ a.2.length) := by
  have : ∀ (acc : List (String × List ColumnInfo)),
      acc.Pairwise (fun a b => b.2.length ≤ a.2.length) →
      (l.foldl (fun acc y => insertByCountDesc y acc) acc).Pairwise
        (fun a b => b.2.length ≤ a.2.length) := by
    induction l with
    | nil => intro acc h; exact h
    | cons z zs ih => intro acc h; exact ih _ (aux_pairwise_insertDesc h)
  exact this [] (by simp)

/-- Claim C6: the rendered schema description contains at most the top 50
tables ranked by column count descending (every rendered table has at least
as many columns as every table left out), lists at most 20 columns per table,
and renders at most 100 foreign-key relationships. -/
theorem claim_C6 (sd : List (String × List ColumnInfo)) (fks : List FkRel) :
    (topTables sd).length ≤ 50 ∧
    (topTables sd).Pairwise (fun a b => b.2.length ≤ a.2.length) ∧
    (∀ a ∈ topTables sd, a ∈ sd) ∧
    (∀ a ∈ topTables sd, ∀ b ∈ (sortTablesDesc sd).drop 50, b.2.length ≤ a.2.length) ∧
    (∀ t ∈ topTables sd, (t.2.take 20).length ≤ 20) ∧
    (fks.take 100).length ≤ 100 := by
  refine ⟨?_, ?_, ?_, ?_, ?_, ?_⟩
  · simp [topTables]
  · exact (aux_sorted_sortTablesDesc sd).sublist (List.take_sublist _ _)
  · intro a ha
    exact aux_mem_sortTablesDesc (List.mem_of_mem_take ha)
  · intro a ha b hb
    have hs := aux_sorted_sortTablesDesc sd
    rw [← List.take_append_drop 50 (sortTablesDesc sd)] at hs
    exact (List.pairwise_append.mp hs).2.2 a ha b hb
  · intro t _
    simp
  · simp

/-- Witness for C6 at concrete schema data and foreign keys. -/
theorem claim_C6_witness :
    (topTables c6sd).length ≤ 50 ∧
    (topTables c6sd).Pairwise (fun a b => b.2.length ≤ a.2.length) ∧
    (∀ a ∈ topTables c6sd, a ∈ c6sd) ∧
    (∀ a ∈ topTables c6sd, ∀ b ∈ (sortTablesDesc c6sd).drop 50, b.2.length ≤ a.2.length) ∧
    (∀ t ∈ topTables c6sd, (t.2.take 20).length ≤ 20) ∧
    (([] : List FkRel).take 100).length ≤ 100 :=
  claim_C6 c6sd []

/-- `addColumn` preserves the invariant that no stored column is sensitive. -/
lemma aux_addColumn_inv {acc : List (String × List ColumnInfo)} {key : String}
    {col : ColumnInfo}
    (hacc : ∀ p ∈ acc, ∀ c ∈ p.2, isSensitiveName c.column_name = false)
    (hcol : isSensitiveName col.column_name = false) :
    ∀ p ∈ addColumn acc key col, ∀ c ∈ p.2, isSensitiveName c.column_name = false := by
  intro p hp c hc
  unfold addColumn at hp
  by_cases hany : acc.any (fun q => q.1 == key)
  · rw [if_pos hany] at hp
    rcases List.mem_map.mp hp with ⟨q, hq, rfl⟩
    by_cases hk : q.1 == key
    · rw [if_pos hk] at hc
      rcases List.mem_append.mp hc with hc | hc
      · exact hacc q hq c hc
      · rw [List.mem_singleton.mp hc]; exact hcol
    · rw [if_neg hk] at hc
      exact hacc q hq c hc
  · rw [if_neg hany] at hp
    rcases List.mem_append.mp hp with hp | hp
    · exact hacc p hp c hc
    · rw [List.mem_singleton.mp hp] at hc
      rw [List.mem_singleton.mp hc]
      exact hcol

/-- The row loop of `get_table_schema` preserves the no-sensitive-column
invariant of its accumulator. -/
lemma aux_schema_fold_inv (rows : List SchemaRow) :
    ∀ (acc : List (String × List ColumnInfo)),
      (∀ p ∈ acc, ∀ c ∈ p.2, isSensitiveName c.column_name = false) →
      ∀ p ∈ rows.foldl
        (fun acc row =>
          if row.schema_name == "sys" || row.schema_name == "INFORMATION_SCHEMA" ||
              startsWithL "#".toList row.table_name.toList then acc
          else if isSensitiveName row.column_name then acc
          else
            addColumn acc (row.schema_name ++ "." ++ row.table_name)
              ⟨row.column_name, row.data_type, row.max_length, row.is_nullable⟩) acc,
        ∀ c ∈ p.2, isSensitiveName c.column_name = false := by
  induction rows with
  | nil => intro acc hacc; exact hacc
  | cons row rest ih =>
    intro acc hacc
    simp only [List.foldl_cons]
    by_cases h1 : row.schema_name == "sys" || row.schema_name == "INFORMATION_SCHEMA" ||
        startsWithL "#".toList row.table_name.toList
    · rw [if_pos h1]; exact ih acc hacc
    · rw [if_neg h1]
      by_cases h2 : isSensitiveName row.column_name
      · rw [if_pos h2]; exact ih acc hacc
      · rw [if_neg h2]
        exact ih _ (aux_addColumn_inv hacc (by simpa using h2))

/-- The row loop of `get_foreign_keys` preserves the no-sensitive-column
invariant of its accumulator. -/
lemma aux_fk_fold_inv (rows : List FkRow) :
    ∀ (acc : List FkRel),
      (∀ fk ∈ acc, isSensitiveName fk.parent_column = false ∧
        isSensitiveName fk.referenced_column = false) →
      ∀ fk ∈ rows.foldl
        (fun acc row =>
          if isSensitiveName row.parent_column || isSensitiveName row.referenced_column then acc
          else acc ++ [⟨row.fk_name, row.parent_schema ++ "." ++ row.parent_table,
            row.parent_column, row.referenced_schema ++ "." ++ row.referenced_table,
            row.referenced_column⟩]) acc,
        isSensitiveName fk.parent_column = false ∧
          isSensitiveName fk.referenced_column = false := by
  induction rows with
  | nil => intro acc hacc; exact hacc
  | cons row rest ih =>
    intro acc hacc
    simp only [List.foldl_cons]
    by_cases h1 : isSensitiveName row.parent_column || isSensitiveName row.referenced_column
    · rw [if_pos h1]; exact ih acc hacc
    · rw [if_neg h1]
      refine ih _ ?_
      intro fk hfk
      rcases List.mem_append.mp hfk with hfk | hfk
      · exact hacc fk hfk
      · rw [List.mem_singleton.mp hfk]
        simp only [Bool.or_eq_true, not_or, Bool.not_eq_true] at h1
        exact ⟨h1.1, h1.2⟩

/-- Claim C1: no column whose (lower-cased) name contains `sold_to` survives
the row-processing stage of either metadata fetch — neither in the grouped
table data, nor among the columns the schema context renders (the top-50
tables, first 20 columns each), nor in the foreign-key relationship list. -/
theorem claim_C1 (rows : List SchemaRow) (fkrows : List FkRow) :
    (∀ p ∈ get_table_schema rows, ∀ c ∈ p.2, isSensitiveName c.column_name = false) ∧
    (∀ p ∈ topTables (get_table_schema rows), ∀ c ∈ p.2.take 20,
      isSensitiveName c.column_name = false) ∧
    (∀ fk ∈ get_foreign_keys fkrows,
      isSensitiveName fk.parent_column = false ∧
        isSensitiveName fk.referenced_column = false) := by
  have hschema := aux_schema_fold_inv rows [] (by intro p hp; cases hp)
  refine ⟨hschema, ?_, ?_⟩
  · intro p hp c hc
    have hpm : p ∈ get_table_schema rows :=
      aux_mem_sortTablesDesc (List.mem_of_mem_take hp)
    exact hschema p hpm c (List.mem_of_mem_take hc)
  · exact aux_fk_fold_inv (fkrows.take 300) [] (by intro fk hfk; cases hfk)

/-- Witness for C1: instantiating the theorem at the concrete rows shows the
one surviving column and the one surviving foreign key are non-sensitive. -/
theorem claim_C1_witness :
    isSensitiveName (ColumnInfo.mk "ORDERNUMBER" "varchar" 20 false).column_name = false ∧
    isSensitiveName (FkRel.mk "FK2" "dbo.Orders" "CUST_ID" "dbo.Cust" "id").parent_column = false ∧
    isSensitiveName (FkRel.mk "FK2" "dbo.Orders" "CUST_ID" "dbo.Cust" "id").referenced_column
      = false := by
  have h := claim_C1 c1rows c1fkrows
  have h1 := h.1 ("dbo.Orders", [⟨"ORDERNUMBER", "varchar", 20, false⟩]) (by decide)
    ⟨"ORDERNUMBER", "varchar", 20, false⟩ (by decide)
  have h2 := h.2.2 ⟨"FK2", "dbo.Orders", "CUST_ID", "dbo.Cust", "id"⟩ (by decide)
  exact ⟨h1, h2.1, h2.2⟩

/-- Claim C5: the prediction normalizer is total by construction (it is a
Lean function, mirroring the Python `try`/`except` that catches every
exception), and on every input whose fence-stripped text fails to parse as
JSON it returns exactly the fixed sentinel. -/
theorem claim_C5 (raw : String) (h : parseJsonStr (stripFences raw) = none) :
    get_prediction raw = predictionSentinel ∧
    (get_prediction raw).predicted_comment = Json.str "Error: Could not generate prediction" ∧
    (get_prediction raw).reason = Json.str "Failed to parse AI response into JSON format" := by
  have he : get_prediction raw = predictionSentinel := by
    simp [get_prediction, h]
  exact ⟨he, by rw [he]; rfl, by rw [he]; rfl⟩

/-- Witness for C5 at a plain-prose model response. -/
theorem claim_C5_witness :
    parseJsonStr (stripFences "I cannot produce a prediction for that order.") = none ∧
    get_prediction "I cannot produce a prediction for that order." = predictionSentinel :=
  ⟨rfl, (claim_C5 "I cannot produce a prediction for that order." rfl).1⟩

/-- Counterexample to claim C3: the raw text below parses as JSON but has
neither `predicted_comment` nor `reason`; the normalizer returns a result
with both fields defaulted to the empty string — a partial success — not the
sentinel error result the claim requires. -/
theorem claim_C3_counterexample :
    parseJsonStr (stripFences "\x7b\"foo\": \"bar\"\x7d") =
      some (Json.obj [("foo", Json.str "bar")]) ∧
    get_prediction "\x7b\"foo\": \"bar\"\x7d" = ⟨Json.str "", Json.str ""⟩ ∧
    get_prediction "\x7b\"foo\": \"bar\"\x7d" ≠ predictionSentinel := by
  refine ⟨rfl, rfl, ?_⟩
  intro h
  have h2 : Json.str "" = Json.str "Error: Could not generate prediction" :=
    congrArg (fun p => p.predicted_comment) h
  simp at h2

/-- Amended claim C3: when the response parses as a JSON object, the
normalizer extracts `predicted_comment` and `reason` with empty-string
defaults; a missing field therefore yields a partial success with that field
defaulted, never the sentinel — only a JSON parse failure produces the
sentinel. -/
theorem claim_C3_amended (raw : String) (fields : List (String × Json))
    (hp : parseJsonStr (stripFences raw) = some (Json.obj fields)) :
    get_prediction raw =
      ⟨(lookupLast "predicted_comment" fields).getD (Json.str ""),
       (lookupLast "reason" fields).getD (Json.str "")⟩ ∧
    (lookupLast "predicted_comment" fields = none →
      (get_prediction raw).predicted_comment = Json.str "" ∧
      get_prediction raw ≠ predictionSentinel) := by
  have he : get_prediction raw =
      ⟨(lookupLast "predicted_comment" fields).getD (Json.str ""),
       (lookupLast "reason" fields).getD (Json.str "")⟩ := by
    simp [get_prediction, hp]
  refine ⟨he, fun hnone => ⟨by rw [he]; simp [hnone], ?_⟩⟩
  intro h
  rw [he] at h
  have h2 : (Option.getD (lookupLast "predicted_comment" fields) (Json.str "")) =
      Json.str "Error: Could not generate prediction" :=
    congrArg (fun p => p.predicted_comment) h
  rw [hnone] at h2
  simp at h2

/-- Witness for the amended C3 at a response missing `predicted_comment`. -/
theorem claim_C3_witness :
    get_prediction "\x7b\"reason\": \"trend matches order 7\"\x7d" =
      ⟨Json.str "", Json.str "trend matches order 7"⟩ ∧
    (get_prediction "\x7b\"reason\": \"trend matches order 7\"\x7d").predicted_comment =
      Json.str "" ∧
    get_prediction "\x7b\"reason\": \"trend matches order 7\"\x7d" ≠ predictionSentinel := by
  have h := claim_C3_amended "\x7b\"reason\": \"trend matches order 7\"\x7d"
    [("reason", Json.str "trend matches order 7")] rfl
  have h2 := h.2 rfl
  exact ⟨h.1, h2.1, h2.2⟩

/-- Claim C4: the SQL-variant normalizer applies its fallbacks in a fixed
order — strict JSON parse first (a parsed object is normalized from its
fields, regex never consulted); on parse failure a case-insensitive scan for
a `SELECT` statement, returned with the heuristic-extraction explanation; and
only if both fail, the sentinel failure result with an empty `sql_query`. -/
theorem claim_C4 (raw : String) :
    (∀ fields, parseJsonStr (stripFences raw) = some (Json.obj fields) →
      nl_to_sql raw =
        ⟨(if jsonFalsy ((lookupLast "sql_query" fields).getD Json.null) then
            Json.str emptySqlComment
          else (lookupLast "sql_query" fields).getD Json.null),
         (lookupLast "explanation" fields).getD (Json.str "")⟩) ∧
    (parseJsonStr (stripFences raw) = none →
      (∀ s, extractSelect (stripFences raw) = some s →
        nl_to_sql raw = ⟨Json.str s, Json.str "SQL query extracted from non-JSON response."⟩) ∧
      (extractSelect (stripFences raw) = none →
        nl_to_sql raw =
          ⟨Json.str "", Json.str "Failed to parse AI response. Please try a different query."⟩)) := by
  refine ⟨?_, ?_⟩
  · intro fields hp
    simp [nl_to_sql, hp]
  · intro hp
    exact ⟨fun s hs => by simp [nl_to_sql, hp, hs], fun hs => by simp [nl_to_sql, hp, hs]⟩

/-- Witness for C4 (spec scenario D): malformed JSON whose text contains a
`SELECT` statement is normalized through the regex fallback. -/
theorem claim_C4_witness :
    parseJsonStr (stripFences "Sure! SELECT TOP 10 * FROM Orders") = none ∧
    extractSelect (stripFences "Sure! SELECT TOP 10 * FROM Orders") =
      some "SELECT TOP 10 * FROM Orders" ∧
    nl_to_sql "Sure! SELECT TOP 10 * FROM Orders" =
      ⟨Json.str "SELECT TOP 10 * FROM Orders",
       Json.str "SQL query extracted from non-JSON response."⟩ :=
  ⟨rfl, rfl, ((claim_C4 "Sure! SELECT TOP 10 * FROM Orders").2 rfl).1
    "SELECT TOP 10 * FROM Orders" rfl⟩

/-- Two strings with different head characters differ. -/
lemma aux_string_head_ne {s t : String} (h : s.data.head? ≠ t.data.head?) : s ≠ t :=
  fun e => h (congrArg (fun x => x.data.head?) e)

/-- `foundMessage` always starts with `F`. -/
lemma aux_foundMessage_head (n : Nat) : (foundMessage n).data.head? = some 'F' := by
  unfold foundMessage
  simp [String.data_append]

/-- The connection-failure message differs from every non-empty-success
message. -/
lemma aux_dbFail_ne_found (n : Nat) : dbFailMessage ≠ foundMessage n := by
  refine aux_string_head_ne ?_
  rw [aux_foundMessage_head]
  decide

/-- The zero-row message differs from every non-empty-success message. -/
lemma aux_noRecords_ne_found (n : Nat) : noRecordsMessage ≠ foundMessage n := by
  refine aux_string_head_ne ?_
  rw [aux_foundMessage_head]
  decide

/-- The not-understood message differs from every non-empty-success message. -/
lemma aux_notUnderstood_ne_found (n : Nat) : notUnderstoodMessage ≠ foundMessage n := by
  refine aux_string_head_ne ?_
  rw [aux_foundMessage_head]
  decide

/-- Counterexample to claim C7 as stated: the outcome `dict`s do not all have
the same field shape.  The connection-failure branch omits the `sql_query`
key entirely, while the success branches include it — two concrete calls with
different key sets. -/
theorem claim_C7_counterexample :
    (execute_query_with_user_feedback "Error: Could not retrieve schema information."
      "SELECT 1 FROM T" (fun _ => some ⟨["c"], [["1"]]⟩)).sql_query = none ∧
    (execute_query_with_user_feedback "Database: D" "SELECT 1 FROM T"
      (fun _ => some ⟨["c"], [["1"]]⟩)).sql_query = some (Json.str "SELECT 1 FROM T") := by
  exact ⟨rfl, rfl⟩

/-- Amended claim C7: `execute_query_with_user_feedback` is total and always
returns a well-formed outcome sharing the four-field core (`success`,
`results`, `message`, `summary`); `sql_query` is additionally present except
in the connection-failure and empty-query branches.  Its three named terminal
states — connection/schema failure, zero-row success, and non-empty success —
are fully characterized and produce pairwise distinct user messages, so
emptiness is never inferable from failure or vice versa. -/
theorem claim_C7_amended (sc raw : String) (execQuery : Json → Option TableData) :
    (containsSub "Error:" sc = true →
      execute_query_with_user_feedback sc raw execQuery =
        ⟨false, none, dbFailMessage, none, none⟩) ∧
    (∀ t, containsSub "Error:" sc = false →
      jsonFalsy (nl_to_sql raw).sql_query = false →
      execQuery (nl_to_sql raw).sql_query = some t → t.rows.length = 0 →
      execute_query_with_user_feedback sc raw execQuery =
        ⟨true, some t, noRecordsMessage, some "No data found that matches your criteria.",
          some (nl_to_sql raw).sql_query⟩) ∧
    (∀ t, containsSub "Error:" sc = false →
      jsonFalsy (nl_to_sql raw).sql_query = false →
      execQuery (nl_to_sql raw).sql_query = some t → t.rows.length ≠ 0 →
      execute_query_with_user_feedback sc raw execQuery =
        ⟨true, some t, foundMessage t.rows.length,
          some (resultSummary t (nl_to_sql raw).explanation),
          some (nl_to_sql raw).sql_query⟩) ∧
    dbFailMessage ≠ noRecordsMessage ∧
    (∀ n, dbFailMessage ≠ foundMessage n) ∧
    (∀ n, noRecordsMessage ≠ foundMessage n) := by
  refine ⟨?_, ?_, ?_, by decide, aux_dbFail_ne_found, aux_noRecords_ne_found⟩
  · intro h
    simp [execute_query_with_user_feedback, h]
  · intro t h1 h2 h3 h4
    simp [execute_query_with_user_feedback, h1, h2, h3, h4]
  · intro t h1 h2 h3 h4
    simp [execute_query_with_user_feedback, h1, h2, h3, h4]

/-- Witness for the amended C7: the connection-failure branch at a concrete
input, plus message distinctness at a concrete row count. -/
theorem claim_C7_witness :
    execute_query_with_user_feedback "Error: Could not retrieve schema information."
      "whatever" (fun _ => none) = ⟨false, none, dbFailMessage, none, none⟩ ∧
    dbFailMessage ≠ noRecordsMessage ∧
    dbFailMessage ≠ foundMessage 1 ∧
    noRecordsMessage ≠ foundMessage 1 := by
  have h := claim_C7_amended "Error: Could not retrieve schema information."
    "whatever" (fun _ => none)
  exact ⟨h.1 rfl, h.2.2.2.1, h.2.2.2.2.1 1, h.2.2.2.2.2 1⟩

/-- Claim C10 (implicit): when the model's JSON parses but its `sql_query`
field is empty/falsy, `nl_to_sql` substitutes the non-empty comment string
`-- Could not generate a valid SQL query`; being truthy, it does not trigger
the empty-query guard of `execute_query_with_user_feedback`, and the comment
text is handed to the query executor instead (so a failing executor yields
the could-not-find outcome carrying the comment as `sql_query`). -/
theorem claim_C10 (sc raw : String) (execQuery : Json → Option TableData)
    (fields : List (String × Json))
    (hsc : containsSub "Error:" sc = false)
    (hp : parseJsonStr (stripFences raw) = some (Json.obj fields))
    (hfalsy : jsonFalsy ((lookupLast "sql_query" fields).getD Json.null) = true) :
    (nl_to_sql raw).sql_query = Json.str emptySqlComment ∧
    (execute_query_with_user_feedback sc raw execQuery).message ≠ notUnderstoodMessage ∧
    (execute_query_with_user_feedback sc raw execQuery).sql_query =
      some (Json.str emptySqlComment) ∧
    (execQuery (Json.str emptySqlComment) = none →
      (execute_query_with_user_feedback sc raw execQuery).message = execFailMessage) := by
  have hsql : nl_to_sql raw =
      ⟨Json.str emptySqlComment, (lookupLast "explanation" fields).getD (Json.str "")⟩ := by
    simp [nl_to_sql, hp, hfalsy]
  have hnf : jsonFalsy (Json.str emptySqlComment) = false := rfl
  cases hex : execQuery (Json.str emptySqlComment) with
  | none =>
    have hout : execute_query_with_user_feedback sc raw execQuery =
        ⟨false, none, execFailMessage, none, some (Json.str emptySqlComment)⟩ := by
      simp [execute_query_with_user_feedback, hsc, hsql, hnf, hex]
    refine ⟨by rw [hsql], by rw [hout]; decide, by rw [hout], fun _ => by rw [hout]⟩
  | some t =>
    by_cases hz : t.rows = []
    · have hout : execute_query_with_user_feedback sc raw execQuery =
          ⟨true, some t, noRecordsMessage, some "No data found that matches your criteria.",
            some (Json.str emptySqlComment)⟩ := by
        simp [execute_query_with_user_feedback, hsc, hsql, hnf, hex, hz]
      refine ⟨by rw [hsql],
        by rw [hout]; show noRecordsMessage ≠ notUnderstoodMessage; decide,
        by rw [hout], fun hcon => ?_⟩
      exact Option.noConfusion hcon
    · have hout : execute_query_with_user_feedback sc raw execQuery =
          ⟨true, some t, foundMessage t.rows.length,
            some (resultSummary t ((lookupLast "explanation" fields).getD (Json.str ""))),
            some (Json.str emptySqlComment)⟩ := by
        simp [execute_query_with_user_feedback, hsc, hsql, hnf, hex, hz]
      refine ⟨by rw [hsql],
        by rw [hout]; show foundMessage t.rows.length ≠ notUnderstoodMessage;
           exact Ne.symm (aux_notUnderstood_ne_found _),
        by rw [hout], fun hcon => ?_⟩
      exact Option.noConfusion hcon

/-- Witness for C10 at a concrete parsed-but-empty `sql_query` response and a
failing executor. -/
theorem claim_C10_witness :
    (nl_to_sql "\x7b\"sql_query\": \"\", \"explanation\": \"no idea\"\x7d").sql_query =
      Json.str emptySqlComment ∧
    (execute_query_with_user_feedback "Database: D"
      "\x7b\"sql_query\": \"\", \"explanation\": \"no idea\"\x7d"
      (fun _ => none)).message ≠ notUnderstoodMessage ∧
    (execute_query_with_user_feedback "Database: D"
      "\x7b\"sql_query\": \"\", \"explanation\": \"no idea\"\x7d"
      (fun _ => none)).sql_query = some (Json.str emptySqlComment) ∧
    (execute_query_with_user_feedback "Database: D"
      "\x7b\"sql_query\": \"\", \"explanation\": \"no idea\"\x7d"
      (fun _ => none)).message = execFailMessage := by
  have h := claim_C10 "Database: D" "\x7b\"sql_query\": \"\", \"explanation\": \"no idea\"\x7d"
    (fun _ => none)
    [("sql_query", Json.str ""), ("explanation", Json.str "no idea")] rfl rfl rfl
  exact ⟨h.1, h.2.1, h.2.2.1, h.2.2.2 rfl⟩

/-- Unicode validity of a `Char`, in `Nat` form. -/
lemma aux_char_valid (c : Char) :
    c.toNat < 0xD800 ∨ (0xDFFF < c.toNat ∧ c.toNat < 0x110000) := by
  have h := c.valid
  rcases h with h | ⟨h1, h2⟩
  · exact Or.inl h
  · exact Or.inr ⟨h1, h2⟩

/-- Hex digits round-trip through `hexVal`. -/
lemma aux_hexVal_hexDig : ∀ k, k < 16 → hexVal (hexDig k) = some k := by decide

/-- Four-digit hex rendering round-trips through `hex4`. -/
lemma aux_hex4_toHex4 (n : Nat) (h : n < 65536) :
    hex4 (hexDig (n / 4096 % 16)) (hexDig (n / 256 % 16)) (hexDig (n / 16 % 16))
      (hexDig (n % 16)) = some n := by
  have e1 := aux_hexVal_hexDig (n / 4096 % 16) (Nat.mod_lt _ (by omega))
  have e2 := aux_hexVal_hexDig (n / 256 % 16) (Nat.mod_lt _ (by omega))
  have e3 := aux_hexVal_hexDig (n / 16 % 16) (Nat.mod_lt _ (by omega))
  have e4 := aux_hexVal_hexDig (n % 16) (Nat.mod_lt _ (by omega))
  simp only [hex4, e1, e2, e3, e4]
  exact congrArg some (by omega)

/-- One definitional unfolding of `parseStrF` at a `\u` escape with symbolic
hex digits. -/
lemma aux_parseStr_u (f : Nat) (a b c2 d : Char) (rest : List Char) :
    parseStrF (f + 1) (bslash :: 'u' :: a :: b :: c2 :: d :: rest) =
      (match hex4 a b c2 d with
       | none => none
       | some n =>
         if n < 0xD800 ∨ 0xE000 ≤ n then
           (parseStrF f rest).map (fun p => (Char.ofNat n :: p.1, p.2))
         else if n ≤ 0xDBFF then
           (match rest with
            | e2 :: u2 :: a2 :: b2 :: c3 :: d2 :: cs3 =>
              if e2 = bslash ∧ u2 = 'u' then
                match hex4 a2 b2 c3 d2 with
                | some m =>
                  if 0xDC00 ≤ m ∧ m ≤ 0xDFFF then
                    (parseStrF f cs3).map (fun p =>
                      (Char.ofNat (0x10000 + (n - 0xD800) * 1024 + (m - 0xDC00)) :: p.1, p.2))
                  else none
                | none => none
              else none
            | _ => none)
         else none) := rfl

/-- A `\u` escape of a non-surrogate code point decodes to that code point. -/
lemma aux_parseStr_u_val (f : Nat) (a b c2 d : Char) (n : Nat) (rest : List Char)
    (hx : hex4 a b c2 d = some n) (hn : n < 0xD800 ∨ 0xE000 ≤ n) :
    parseStrF (f + 1) (bslash :: 'u' :: a :: b :: c2 :: d :: rest) =
      (parseStrF f rest).map (fun p => (Char.ofNat n :: p.1, p.2)) := by
  simp [aux_parseStr_u, hx, hn]

/-- A surrogate-pair escape decodes to the combined astral code point. -/
lemma aux_parseStr_u_pair (f : Nat) (a b c2 d a2 b2 c3 d2 : Char) (n m : Nat)
    (rest : List Char) (hx : hex4 a b c2 d = some n) (hx2 : hex4 a2 b2 c3 d2 = some m)
    (hn1 : ¬(n < 0xD800 ∨ 0xE000 ≤ n)) (hn2 : n ≤ 0xDBFF)
    (hm : 0xDC00 ≤ m ∧ m ≤ 0xDFFF) :
    parseStrF (f + 1)
      (bslash :: 'u' :: a :: b :: c2 :: d :: bslash :: 'u' :: a2 :: b2 :: c3 :: d2 :: rest) =
      (parseStrF f rest).map (fun p =>
        (Char.ofNat (0x10000 + (n - 0xD800) * 1024 + (m - 0xDC00)) :: p.1, p.2)) := by
  simp [aux_parseStr_u, hx, hx2, hn1, hn2, hm]

/-- Each character emitted by `escChar` is decoded back by one step of
`parseStrF`. -/
lemma aux_escStep (c : Char) (f : Nat) (tail : List Char) :
    parseStrF (f + 1) (escChar c ++ tail) =
      (parseStrF f tail).map (fun p => (c :: p.1, p.2)) := by
  by_cases h1 : c = dquote
  · subst h1; rfl
  by_cases h2 : c = bslash
  · subst h2; rfl
  by_cases h3 : c = Char.ofNat 8
  · subst h3; rfl
  by_cases h4 : c = Char.ofNat 9
  · subst h4; rfl
  by_cases h5 : c = Char.ofNat 10
  · subst h5; rfl
  by_cases h6 : c = Char.ofNat 12
  · subst h6; rfl
  by_cases h7 : c = Char.ofNat 13
  · subst h7; rfl
  by_cases h8 : 32 ≤ c.toNat ∧ c.toNat ≤ 126
  · have e : escChar c = [c] := by
      rw [escChar, if_neg h1, if_neg h2, if_neg h3, if_neg h4, if_neg h5, if_neg h6,
        if_neg h7, if_pos h8]
    have hne32 : ¬(c.toNat < 32) := by omega
    rw [e, List.singleton_append]
    simp only [parseStrF]
    rw [if_neg h1, if_neg h2, if_neg hne32]
  by_cases h9 : c.toNat < 0x10000
  · -- basic-plane escape
    have hlow : c.toNat < 0xD800 ∨ 0xE000 ≤ c.toNat := by
      rcases aux_char_valid c with h | ⟨h', _⟩
      · exact Or.inl h
      · exact Or.inr (by omega)
    have e : escChar c = bslash :: 'u' :: toHex4 c.toNat := by
      rw [escChar, if_neg h1, if_neg h2, if_neg h3, if_neg h4, if_neg h5, if_neg h6,
        if_neg h7, if_neg h8, if_pos h9]
    rw [e, toHex4]
    rw [show (bslash :: 'u' :: [hexDig (c.toNat / 4096 % 16), hexDig (c.toNat / 256 % 16),
        hexDig (c.toNat / 16 % 16), hexDig (c.toNat % 16)]) ++ tail =
      bslash :: 'u' :: hexDig (c.toNat / 4096 % 16) :: hexDig (c.toNat / 256 % 16) ::
        hexDig (c.toNat / 16 % 16) :: hexDig (c.toNat % 16) :: tail from rfl]
    rw [aux_parseStr_u_val f _ _ _ _ c.toNat tail (aux_hex4_toHex4 c.toNat h9) hlow,
      Char.ofNat_toNat]
  · -- astral plane: surrogate-pair escape
    have hval : c.toNat < 0x110000 := by
      rcases aux_char_valid c with h | ⟨_, h'⟩
      · omega
      · exact h'
    have hge : 0x10000 ≤ c.toNat := by omega
    have hdiv : (c.toNat - 0x10000) / 1024 < 1024 := by omega
    have hmod : (c.toNat - 0x10000) % 1024 < 1024 := Nat.mod_lt _ (by omega)
    have hhi : 0xD800 + (c.toNat - 0x10000) / 1024 < 65536 := by omega
    have hlo : 0xDC00 + (c.toNat - 0x10000) % 1024 < 65536 := by omega
    have hnotlow : ¬(0xD800 + (c.toNat - 0x10000) / 1024 < 0xD800 ∨
        0xE000 ≤ 0xD800 + (c.toNat - 0x10000) / 1024) := by omega
    have hislo : 0xD800 + (c.toNat - 0x10000) / 1024 ≤ 0xDBFF := by omega
    have hinrange : 0xDC00 ≤ 0xDC00 + (c.toNat - 0x10000) % 1024 ∧
        0xDC00 + (c.toNat - 0x10000) % 1024 ≤ 0xDFFF := by omega
    have e : escChar c = (bslash :: 'u' :: toHex4 (0xD800 + (c.toNat - 0x10000) / 1024)) ++
        (bslash :: 'u' :: toHex4 (0xDC00 + (c.toNat - 0x10000) % 1024)) := by
      rw [escChar, if_neg h1, if_neg h2, if_neg h3, if_neg h4, if_neg h5, if_neg h6,
        if_neg h7, if_neg h8, if_neg h9]
    rw [e, toHex4, toHex4]
    rw [show ((bslash :: 'u' :: [hexDig ((0xD800 + (c.toNat - 0x10000) / 1024) / 4096 % 16),
        hexDig ((0xD800 + (c.toNat - 0x10000) / 1024) / 256 % 16),
        hexDig ((0xD800 + (c.toNat - 0x10000) / 1024) / 16 % 16),
        hexDig ((0xD800 + (c.toNat - 0x10000) / 1024) % 16)]) ++
        (bslash :: 'u' :: [hexDig ((0xDC00 + (c.toNat - 0x10000) % 1024) / 4096 % 16),
        hexDig ((0xDC00 + (c.toNat - 0x10000) % 1024) / 256 % 16),
        hexDig ((0xDC00 + (c.toNat - 0x10000) % 1024) / 16 % 16),
        hexDig ((0xDC00 + (c.toNat - 0x10000) % 1024) % 16)])) ++ tail =
      bslash :: 'u' :: hexDig ((0xD800 + (c.toNat - 0x10000) / 1024) / 4096 % 16) ::
        hexDig ((0xD800 + (c.toNat - 0x10000) / 1024) / 256 % 16) ::
        hexDig ((0xD800 + (c.toNat - 0x10000) / 1024) / 16 % 16) ::
        hexDig ((0xD800 + (c.toNat - 0x10000) / 1024) % 16) ::
        bslash :: 'u' :: hexDig ((0xDC00 + (c.toNat - 0x10000) % 1024) / 4096 % 16) ::
        hexDig ((0xDC00 + (c.toNat - 0x10000) % 1024) / 256 % 16) ::
        hexDig ((0xDC00 + (c.toNat - 0x10000) % 1024) / 16 % 16) ::
        hexDig ((0xDC00 + (c.toNat - 0x10000) % 1024) % 16) :: tail from rfl]
    rw [aux_parseStr_u_pair f _ _ _ _ _ _ _ _ _ _ tail (aux_hex4_toHex4 _ hhi)
      (aux_hex4_toHex4 _ hlo) hnotlow hislo hinrange]
    have harith : 0x10000 + (0xD800 + (c.toNat - 0x10000) / 1024 - 0xD800) * 1024 +
        (0xDC00 + (c.toNat - 0x10000) % 1024 - 0xDC00) = c.toNat := by omega
    rw [harith, Char.ofNat_toNat]

/-- Escaping never shortens a string. -/
lemma aux_escL_len (cs : List Char) : cs.length ≤ (escL cs).length := by
  induction cs with
  | nil => simp [escL]
  | cons c cs ih =>
    have h1 : 1 ≤ (escChar c).length := by
      unfold escChar
      repeat' split
      all_goals simp
    simp only [escL, List.length_append, List.length_cons]
    omega

/-- A `json.dumps`-escaped string literal body parses back to the original
characters, leaving the text after the closing quote untouched. -/
lemma aux_parseStr_escL : ∀ (s rest : List Char) (f : Nat), s.length < f →
    parseStrF f (escL s ++ dquote :: rest) = some (s, rest) := by
  intro s
  induction s with
  | nil =>
    intro rest f hf
    cases f with
    | zero => omega
    | succ f' => simp [escL, parseStrF]
  | cons c cs ih =>
    intro rest f hf
    cases f with
    | zero => omega
    | succ f' =>
      have e : escL (c :: cs) ++ dquote :: rest = escChar c ++ (escL cs ++ dquote :: rest) := by
        simp [escL, List.append_assoc]
      rw [e, aux_escStep, ih rest f' (by simpa using Nat.lt_of_succ_lt_succ hf)]
      rfl

/-- Hex digits are never a backtick. -/
lemma aux_hexDig_ne_bq : ∀ k, k < 16 → hexDig k ≠ bq := by decide

/-- `escChar` emits a backtick only for a backtick. -/
lemma aux_escChar_no_bq (c : Char) (h : c ≠ bq) : bq ∉ escChar c := by
  unfold escChar
  split
  · decide
  split
  · decide
  split
  · decide
  split
  · decide
  split
  · decide
  split
  · decide
  split
  · decide
  split
  · intro hm
    exact h (List.mem_singleton.mp hm).symm
  split
  · intro hm
    rw [toHex4] at hm
    simp only [List.mem_cons, List.not_mem_nil, or_false] at hm
    rcases hm with hm | hm | hm | hm | hm | hm
    all_goals first
      | (exact absurd hm (by decide))
      | (exact aux_hexDig_ne_bq _ (Nat.mod_lt _ (by omega)) hm.symm)
  · intro hm
    rw [toHex4, toHex4] at hm
    simp only [List.cons_append, List.nil_append, List.mem_cons, List.not_mem_nil,
      or_false] at hm
    rcases hm with hm | hm | hm | hm | hm | hm | hm | hm | hm | hm | hm | hm
    all_goals first
      | (exact absurd hm (by decide))
      | (exact aux_hexDig_ne_bq _ (Nat.mod_lt _ (by omega)) hm.symm)

/-- Escaping a backtick-free string yields backtick-free text. -/
lemma aux_escL_no_bq {cs : List Char} (h : bq ∉ cs) : bq ∉ escL cs := by
  induction cs with
  | nil => simp [escL]
  | cons c cs ih =>
    simp only [escL, List.mem_append]
    intro hm
    rcases hm with hm | hm
    · exact aux_escChar_no_bq c (fun e => h (by simp [e])) hm
    · exact ih (fun e => h (List.mem_cons_of_mem _ e)) hm

/-- The serialized prediction result of backtick-free fields is
backtick-free. -/
lemma aux_dumps_no_bq {a b : List Char} (ha : bq ∉ a) (hb : bq ∉ b) :
    bq ∉ dumpsPredictionL a b := by
  have hka : bq ∉ escL "predicted_comment".toList := by decide
  have hkb : bq ∉ escL "reason".toList := by decide
  have hea := aux_escL_no_bq ha
  have heb := aux_escL_no_bq hb
  intro hm
  rw [dumpsPredictionL] at hm
  simp only [List.mem_cons, List.mem_append, List.not_mem_nil, or_false, hka, hkb,
    hea, heb, (show ¬(bq = lbrace) by decide), (show ¬(bq = dquote) by decide),
    (show ¬(bq = ':') by decide), (show ¬(bq = ' ') by decide),
    (show ¬(bq = ',') by decide), (show ¬(bq = rbrace) by decide),
    or_false, false_or] at hm

/-- The first fence-stripping pass leaves backtick-free text unchanged. -/
lemma aux_sub1_id : ∀ (f : Nat) (cs : List Char), bq ∉ cs → sub1F f cs = cs := by
  intro f
  induction f with
  | zero => intro cs _; rfl
  | succ f ih =>
    intro cs h
    cases cs with
    | nil => rfl
    | cons c cs' =>
      have hc : ¬(c = bq) := fun e => h (by simp [e])
      have hb : (bq == c) = false := by
        simpa using fun e => hc e.symm
      have hs : startsWithL (String.toList "```json") (c :: cs') = false := by
        show (bq == c && startsWithL (bq :: bq :: 'j' :: 's' :: 'o' :: 'n' :: []) cs') = false
        rw [hb, Bool.false_and]
      simp only [sub1F, hs, Bool.false_eq_true, if_false]
      rw [ih cs' (fun e => h (List.mem_cons_of_mem _ e))]

/-- The second fence-stripping pass leaves backtick-free text unchanged. -/
lemma aux_sub2_id : ∀ (f : Nat) (cs : List Char), bq ∉ cs → sub2F f cs = cs := by
  intro f
  induction f with
  | zero => intro cs _; rfl
  | succ f ih =>
    intro cs h
    cases cs with
    | nil => rfl
    | cons c cs' =>
      have hc : ¬(c = bq) := fun e => h (by simp [e])
      have hb : (bq == c) = false := by
        simpa using fun e => hc e.symm
      have hs : startsWithL (String.toList "```") (c :: cs') = false := by
        show (bq == c && startsWithL (bq :: bq :: []) cs') = false
        rw [hb, Bool.false_and]
      simp only [sub2F, hs, Bool.false_eq_true, if_false]
      rw [ih cs' (fun e => h (List.mem_cons_of_mem _ e))]

/-- Fence stripping is the identity on backtick-free text. -/
lemma aux_stripFences_id (s : String) (h : bq ∉ s.toList) : stripFences s = s := by
  show String.mk (sub2F ((sub1F (s.toList.length + 1) s.toList).length + 1)
    (sub1F (s.toList.length + 1) s.toList)) = s
  rw [aux_sub1_id _ _ h, aux_sub2_id _ _ h]
  exact aux_mk_toList s

/-- A leading space is consumed before a value is parsed. -/
lemma aux_val_sp (g : Nat) (rest : List Char) :
    parseCore (g + 1) PMode.val (' ' :: rest) = parseCore (g + 1) PMode.val rest := rfl

/-- One definitional unfolding of `parseCore` at a string value. -/
lemma aux_parseCore_val_str_raw (g : Nat) (r : List Char) :
    parseCore (g + 1) PMode.val (dquote :: r) =
      (match parseStrF (r.length + 1) r with
       | some (sc, rest) => some (PRes.v (Json.str (String.mk sc)), rest)
       | none => none) := rfl

/-- An escaped string value parses to the original string. -/
lemma aux_parseCore_val_str (g : Nat) (s tail : List Char) :
    parseCore (g + 1) PMode.val (dquote :: (escL s ++ dquote :: tail)) =
      some (PRes.v (Json.str (String.mk s)), tail) := by
  rw [aux_parseCore_val_str_raw]
  rw [aux_parseStr_escL s tail _ (by
    have := aux_escL_len s
    simp only [List.length_append, List.length_cons]
    omega)]

/-- An escaped string value after a space parses to the original string. -/
lemma aux_parseCore_val_str_sp (g : Nat) (s tail : List Char) :
    parseCore (g + 1) PMode.val (' ' :: dquote :: (escL s ++ dquote :: tail)) =
      some (PRes.v (Json.str (String.mk s)), tail) := by
  rw [aux_val_sp, aux_parseCore_val_str]

/-- One definitional unfolding of `parseCore` at an object opening with a
string first key. -/
lemma aux_parseCore_val_obj (g : Nat) (r2 : List Char) :
    parseCore (g + 1) PMode.val (lbrace :: dquote :: r2) =
      (match parseStrF (r2.length + 1) r2 with
       | none => none
       | some (k, rest1) =>
         match skipWs rest1 with
         | ':' :: rest2 =>
           match parseCore g PMode.val rest2 with
           | some (PRes.v v, rest3) =>
             match parseCore g PMode.objTail rest3 with
             | some (PRes.ms l, rest4) =>
               some (PRes.v (Json.obj ((String.mk k, v) :: l)), rest4)
             | _ => none
           | _ => none
         | _ => none) := rfl

/-- One definitional unfolding of `parseCore` at an object tail holding
another string-keyed member. -/
lemma aux_parseCore_objTail_mem (g : Nat) (r2 : List Char) :
    parseCore (g + 1) PMode.objTail (',' :: ' ' :: dquote :: r2) =
      (match parseStrF (r2.length + 1) r2 with
       | none => none
       | some (k, rest1) =>
         match skipWs rest1 with
         | ':' :: rest2 =>
           match parseCore g PMode.val rest2 with
           | some (PRes.v v, rest3) =>
             match parseCore g PMode.objTail rest3 with
             | some (PRes.ms l, rest4) => some (PRes.ms ((String.mk k, v) :: l), rest4)
             | _ => none
           | _ => none
         | _ => none) := rfl

/-- The closing brace ends an object tail. -/
lemma aux_parseCore_objTail_close (g : Nat) :
    parseCore (g + 1) PMode.objTail [rbrace] = some (PRes.ms [], []) := rfl

/-- The serialized two-field prediction object parses back to the two
original fields, consuming the whole input. -/
lemma aux_parse_dumps (a b : List Char) (g : Nat) :
    parseCore (g + 3) PMode.val (dumpsPredictionL a b) =
      some (PRes.v (Json.obj [("predicted_comment", Json.str (String.mk a)),
        ("reason", Json.str (String.mk b))]), []) := by
  rw [dumpsPredictionL]
  rw [show g + 3 = (g + 2) + 1 from rfl]
  rw [aux_parseCore_val_obj (g + 2)]
  rw [aux_parseStr_escL "predicted_comment".toList _ _ (by
    have := aux_escL_len "predicted_comment".toList
    simp only [List.length_append, List.length_cons]
    omega)]
  show (match parseCore (g + 2) PMode.val (' ' :: dquote ::
      (escL a ++ dquote :: ',' :: ' ' :: dquote :: (escL "reason".toList ++
        dquote :: ':' :: ' ' :: dquote :: (escL b ++ [dquote, rbrace])))) with
    | some (PRes.v v, rest3) =>
      match parseCore (g + 2) PMode.objTail rest3 with
      | some (PRes.ms l, rest4) =>
        some (PRes.v (Json.obj (("predicted_comment", v) :: l)), rest4)
      | _ => none
    | _ => none) = _
  rw [show g + 2 = (g + 1) + 1 from rfl]
  rw [aux_parseCore_val_str_sp (g + 1) a]
  show (match parseCore ((g + 1) + 1) PMode.objTail (',' :: ' ' :: dquote ::
      (escL "reason".toList ++ dquote :: ':' :: ' ' :: dquote ::
        (escL b ++ [dquote, rbrace]))) with
    | some (PRes.ms l, rest4) =>
      some (PRes.v (Json.obj (("predicted_comment", Json.str (String.mk a)) :: l)), rest4)
    | _ => none) = _
  rw [aux_parseCore_objTail_mem (g + 1)]
  rw [aux_parseStr_escL "reason".toList _ _ (by
    have := aux_escL_len "reason".toList
    simp only [List.length_append, List.length_cons]
    omega)]
  show (match (match parseCore (g + 1) PMode.val
        (' ' :: dquote :: (escL b ++ dquote :: [rbrace])) with
      | some (PRes.v v, rest3) =>
        match parseCore (g + 1) PMode.objTail rest3 with
        | some (PRes.ms l, rest4) => some (PRes.ms (("reason", v) :: l), rest4)
        | _ => none
      | _ => none) with
    | some (PRes.ms l, rest4) =>
      some (PRes.v (Json.obj (("predicted_comment", Json.str (String.mk a)) :: l)), rest4)
    | _ => none) = _
  rw [aux_parseCore_val_str_sp g b [rbrace]]
  show (match (match parseCore (g + 1) PMode.objTail [rbrace] with
      | some (PRes.ms l, rest4) =>
        some (PRes.ms (("reason", Json.str (String.mk b)) :: l), rest4)
      | _ => none) with
    | some (PRes.ms l, rest4) =>
      some (PRes.v (Json.obj (("predicted_comment", Json.str (String.mk a)) :: l)), rest4)
    | _ => none) = _
  rw [aux_parseCore_objTail_close g]

/-- `json.loads` of the serialized prediction result recovers exactly the two
fields. -/
lemma aux_parseJson_dumps (a b : String) :
    parseJsonStr (dumpsPrediction a b) = some (Json.obj
      [("predicted_comment", Json.str a), ("reason", Json.str b)]) := by
  obtain ⟨g, hg⟩ : ∃ g, (dumpsPredictionL a.toList b.toList).length + 1 = g + 3 :=
    ⟨(dumpsPredictionL a.toList b.toList).length - 2, by
      simp only [dumpsPredictionL, List.length_cons]
      omega⟩
  show (match parseCore ((dumpsPredictionL a.toList b.toList).length + 1) PMode.val
      (dumpsPredictionL a.toList b.toList) with
    | some (PRes.v j, rest) => if (skipWs rest).isEmpty then some j else none
    | _ => none) = _
  rw [hg, aux_parse_dumps]
  rfl

/-- Counterexample to claim C8 as stated: the normalizer can produce a result
whose field contains backticks (the model writes them as ``` escapes, so
fence stripping does not see them); serializing that result and normalizing
again strips the now-literal backticks, yielding a different object.  The
round trip is therefore not stable for every produced result. -/
theorem claim_C8_counterexample :
    get_prediction
        "\x7b\"predicted_comment\": \"\\u0060\\u0060\\u0060\", \"reason\": \"r\"\x7d" =
      ⟨Json.str backtick3, Json.str "r"⟩ ∧
    get_prediction (dumpsPrediction backtick3 "r") = ⟨Json.str "", Json.str "r"⟩ ∧
    Json.str backtick3 ≠ Json.str "" := by
  refine ⟨rfl, rfl, ?_⟩
  intro h
  have h2 : backtick3 = "" := Json.str.inj h
  have h3 : backtick3.toList = [] := by rw [h2]; rfl
  simp [backtick3] at h3

/-- Amended claim C8: the normalizer is round-trip stable on every result
with backtick-free string fields (the restriction the counterexample forces;
string-typed fields are the `PredictionResult` contract): serializing
`{predicted_comment, reason}` with `json.dumps` and normalizing again yields
the same two fields, and in particular normalizing an already-normalized
two-field JSON string is the identity on it. -/
theorem claim_C8_amended (a b : String) (ha : bq ∉ a.toList) (hb : bq ∉ b.toList) :
    get_prediction (dumpsPrediction a b) = ⟨Json.str a, Json.str b⟩ := by
  have hstrip : stripFences (dumpsPrediction a b) = dumpsPrediction a b :=
    aux_stripFences_id _ (aux_dumps_no_bq ha hb)
  unfold get_prediction
  rw [hstrip, aux_parseJson_dumps]
  rfl

/-- Witness for the amended C8 at concrete backtick-free fields. -/
theorem claim_C8_witness :
    get_prediction (dumpsPrediction "Released - stable trend" "matches order 100235") =
      ⟨Json.str "Released - stable trend", Json.str "matches order 100235"⟩ :=
  claim_C8_amended "Released - stable trend" "matches order 100235"
    (by decide) (by decide)
